import Mathlib

/-!
Verification of the firo_logger log-record dispatch and file-rotation engine.

The definitions below are a shallow embedding of the Rust sources:
`src/config.rs` (levels, configuration, validation, module-override
resolution), `src/formatters.rs` (records and formatters), `src/writers.rs`
(console/file/multi/level-filter writers, rotation, backup cleanup) and
`src/logger.rs` (the dispatcher, statistics, the async worker, the
process-wide singleton and the scoped thread-local override).

External collaborators are modelled at their observable interface:
chrono timestamps are carried as their rendering function
(format string to rendered text), the file system is an explicit record of
the facts the code reads from it, and trait objects (`Box<dyn Writer>`,
`Box<dyn Formatter>`) are first-class values describing their behaviour.
-/

namespace FiroLogger

/-- Log levels from `src/config.rs` (`LogLevel`), discriminants 0..4. -/
inductive LogLevel where
  | Error
  | Warning
  | Info
  | Success
  | Debug
deriving DecidableEq, Repr

/-- Numeric rank of a level: the Rust enum discriminant, which drives the
derived `Ord` used by every level comparison in the source. -/
def LogLevel.rank : LogLevel → Nat
  | .Error => 0
  | .Warning => 1
  | .Info => 2
  | .Success => 3
  | .Debug => 4

/-- String form of a level (`LogLevel::as_str`). -/
def LogLevel.as_str : LogLevel → String
  | .Error => "ERROR"
  | .Warning => "WARNING"
  | .Info => "INFO"
  | .Success => "SUCCESS"
  | .Debug => "DEBUG"

/-- All levels in priority order (`LogLevel::all`). -/
def LogLevel.all : List LogLevel :=
  [.Error, .Warning, .Info, .Success, .Debug]

/-- Output formats from `src/config.rs` (`OutputFormat`). -/
inductive OutputFormat where
  | Text
  | Json
  | Plain
deriving DecidableEq, Repr

/-- Time-based rotation frequency (`RotationFrequency`). -/
inductive RotationFrequency where
  | Daily
  | Weekly
  | Monthly
deriving DecidableEq, Repr

/-- Rotation policy (`RotationConfig`); sizes are byte counts. -/
inductive RotationConfig where
  | None
  | Size (max_size : Nat) (keep_files : Nat)
  | Time (frequency : RotationFrequency) (keep_files : Nat)
deriving DecidableEq, Repr

/-- File-output configuration (`FileConfig`); the path is carried as the
string of the configured `PathBuf`. -/
structure FileConfig where
  path : String
  append : Bool
  rotation : RotationConfig
  buffer_size : Nat
  flush_interval : Nat
deriving DecidableEq, Repr

/-- The Rust `Default` impl for `FileConfig`. -/
def FileConfig.defaultConfig : FileConfig :=
  { path := "app.log"
    append := true
    rotation := .None
    buffer_size := 8192
    flush_interval := 1000 }

/-- Console-output configuration (`ConsoleConfig`). -/
structure ConsoleConfig where
  colors : Bool
  use_stderr : Bool
deriving DecidableEq, Repr

/-- The Rust `Default` impl for `ConsoleConfig`. -/
def ConsoleConfig.defaultConfig : ConsoleConfig :=
  { colors := true, use_stderr := true }

/-- Main logger configuration (`LoggerConfig`).  The module-filter map is
modelled by its lookup function (`HashMap::get`), and the global metadata
map by an association list in iteration order. -/
structure LoggerConfig where
  level : LogLevel
  format : OutputFormat
  console_enabled : Bool
  console : ConsoleConfig
  file_enabled : Bool
  file : FileConfig
  async_enabled : Bool
  async_buffer_size : Nat
  datetime_format : String
  module_filters : String → Option LogLevel
  include_caller : Bool
  include_thread : Bool
  metadata : List (String × String)

/-- The Rust `Default` impl for `LoggerConfig`. -/
def LoggerConfig.defaultConfig : LoggerConfig :=
  { level := .Info
    format := .Text
    console_enabled := true
    console := ConsoleConfig.defaultConfig
    file_enabled := false
    file := FileConfig.defaultConfig
    async_enabled := false
    async_buffer_size := 1000
    datetime_format := "%Y-%m-%d %H:%M:%S"
    module_filters := fun _ => none
    include_caller := false
    include_thread := false
    metadata := [] }

/-- Errors from `src/error.rs` (`LoggerError`); payloads that the claims
never inspect (wrapped `io::Error`, serde and clock errors) are dropped. -/
inductive LoggerError where
  | Io
  | Config (msg : String)
  | Serialization
  | AlreadyInitialized
  | NotInitialized
  | Channel (msg : String)
  | Time
  | Custom (msg : String)
deriving DecidableEq, Repr

/-- The validation performed by `LoggerConfig::validate`, checks in source
order with the source's error messages. -/
def LoggerConfig.validate (cfg : LoggerConfig) : Except LoggerError Unit :=
  if !cfg.console_enabled && !cfg.file_enabled then
    .error (.Config "At least one output (console or file) must be enabled")
  else if cfg.file_enabled && cfg.file.path == "" then
    .error (.Config "File path cannot be empty when file logging is enabled")
  else if cfg.async_enabled && cfg.async_buffer_size == 0 then
    .error (.Config "Async buffer size must be greater than 0")
  else
    .ok ()

/-- Rust `str::split("::")` on the character sequence of a module path:
leftmost, non-overlapping occurrences of the two-character separator. -/
def splitSegsAux : List Char → List Char → List String
  | [], acc => [String.mk acc.reverse]
  | ':' :: ':' :: rest, acc => String.mk acc.reverse :: splitSegsAux rest []
  | c :: rest, acc => splitSegsAux rest (c :: acc)

/-- The segment list of a module path, as `module.split("::")` yields it. -/
def splitModule (m : String) : List String :=
  splitSegsAux m.data []

/-- The loop body of `LoggerConfig::effective_level`: extend the current
path by each segment in root-to-leaf order and return the first filter hit. -/
def walkSegments (filters : String → Option LogLevel) :
    List String → String → Option LogLevel
  | [], _ => none
  | p :: rest, current =>
    let cur := if current.isEmpty then p else current ++ "::" ++ p
    match filters cur with
    | some l => some l
    | none => walkSegments filters rest cur

/-- Embedding of `LoggerConfig::effective_level`: exact module match first, then the
root-to-leaf prefix walk, then the global level. -/
def LoggerConfig.effective_level (cfg : LoggerConfig) (module : String) :
    LogLevel :=
  match cfg.module_filters module with
  | some l => l
  | none =>
    match walkSegments cfg.module_filters (splitModule module) "" with
    | some l => l
    | none => cfg.level

/-- The cumulative `::`-joined paths of a segment list, starting from a
given current path; used to state override resolution declaratively. -/
def cumPaths : List String → String → List String
  | [], _ => []
  | p :: rest, current =>
    let cur := if current.isEmpty then p else current ++ "::" ++ p
    cur :: cumPaths rest cur

/-- All `::`-prefixes of a module path from root to leaf. -/
def moduleAncestors (m : String) : List String :=
  cumPaths (splitModule m) ""

/-- Resolution as claim C1 words it: exact match, else the
longest-matching-prefix override (the last match when walking root to
leaf), else the global level. -/
def claimedLongestResolve (cfg : LoggerConfig) (module : String) : LogLevel :=
  match cfg.module_filters module with
  | some l => l
  | none =>
    match (moduleAncestors module).reverse.findSome? cfg.module_filters with
    | some l => l
    | none => cfg.level

/-- Resolution as the code actually behaves: exact match, else the first
(shortest) matching prefix when walking root to leaf, else the global
level. -/
def shortestResolve (cfg : LoggerConfig) (module : String) : LogLevel :=
  match cfg.module_filters module with
  | some l => l
  | none =>
    match (moduleAncestors module).findSome? cfg.module_filters with
    | some l => l
    | none => cfg.level

lemma walkSegments_eq_findSome (filters : String → Option LogLevel) :
    ∀ (parts : List String) (current : String),
      walkSegments filters parts current =
        (cumPaths parts current).findSome? filters := by
  intro parts
  induction parts with
  | nil => intro current; rfl
  | cons p rest ih =>
    intro current
    simp only [walkSegments, cumPaths, List.findSome?]
    cases filters (if current.isEmpty then p else current ++ "::" ++ p) with
    | none => simpa using ih _
    | some l => rfl

/-- Caller information captured at the log call site
(`src/formatters.rs`, `CallerInfo`). -/
structure CallerInfo where
  file : String
  line : Nat
  module : Option String
deriving DecidableEq, Repr

/-- Thread identity (`ThreadInfo`). -/
structure ThreadInfo where
  id : String
  name : Option String
deriving DecidableEq, Repr

/-- A log record (`LogRecord`).  Its chrono timestamp is carried as the
function from a datetime format string to the rendered text, the only
operation the source ever applies to it; metadata is an association list
in iteration order. -/
structure LogRecord where
  level : LogLevel
  message : String
  timestamp : String → String
  module : Option String
  caller : Option CallerInfo
  thread : Option ThreadInfo
  metadata : List (String × String)

/-- Embedding of `LogRecord::new`: level and rendered message, timestamp taken now,
everything else empty. -/
def LogRecord.new (level : LogLevel) (message : String)
    (now : String → String) : LogRecord :=
  { level := level
    message := message
    timestamp := now
    module := none
    caller := none
    thread := none
    metadata := [] }

/-- Embedding of `LogRecord::with_module`. -/
def LogRecord.with_module (r : LogRecord) (m : String) : LogRecord :=
  { r with module := some m }

/-- Embedding of `LogRecord::with_caller`. -/
def LogRecord.with_caller (r : LogRecord) (c : CallerInfo) : LogRecord :=
  { r with caller := some c }

/-- Embedding of `LogRecord::with_thread`. -/
def LogRecord.with_thread (r : LogRecord) (t : ThreadInfo) : LogRecord :=
  { r with thread := some t }

/-- Embedding of `LogRecord::with_metadata_map` (`HashMap::extend`): the new entries
are appended to the record's metadata. -/
def LogRecord.with_metadata_map (r : LogRecord)
    (m : List (String × String)) : LogRecord :=
  { r with metadata := r.metadata ++ m }

/-- ANSI color table from `src/config.rs` (`Colors`). -/
def Colors.RED : String := "\x1b[31m"

def Colors.GREEN : String := "\x1b[32m"

def Colors.YELLOW : String := "\x1b[33m"

def Colors.BLUE : String := "\x1b[34m"

def Colors.CYAN : String := "\x1b[36m"

def Colors.RESET : String := "\x1b[0m"

/-- Embedding of `Colors::for_level`. -/
def Colors.for_level : LogLevel → String
  | .Error => Colors.RED
  | .Warning => Colors.YELLOW
  | .Info => Colors.CYAN
  | .Success => Colors.GREEN
  | .Debug => Colors.BLUE

/-- Rust formatting directive `{:>7}`: right-align in a field of width 7
by space padding. -/
def padLeft7 (s : String) : String :=
  String.mk (List.replicate (7 - s.length) ' ') ++ s

/-- Text formatter state (`TextFormatter`). -/
structure TextFormatter where
  colors : Bool
  datetime_format : String
  include_caller : Bool
  include_thread : Bool
  include_module : Bool
deriving DecidableEq, Repr

/-- JSON formatter state (`JsonFormatter`). -/
structure JsonFormatter where
  pretty : Bool
  datetime_format : String
  include_caller : Bool
  include_thread : Bool
  include_module : Bool
deriving DecidableEq, Repr

/-- Plain formatter state (`PlainFormatter`). -/
structure PlainFormatter where
  datetime_format : String
  include_caller : Bool
  include_thread : Bool
  include_module : Bool
deriving DecidableEq, Repr

/-- The optional thread part `[name:id]` or `[id]` shared by the text and
plain formatters. -/
def threadPart (include_thread : Bool) (r : LogRecord) : List String :=
  if include_thread then
    match r.thread with
    | some t =>
      match t.name with
      | some n => ["[" ++ n ++ ":" ++ t.id ++ "]"]
      | none => ["[" ++ t.id ++ "]"]
    | none => []
  else []

/-- The optional module part `[module]`. -/
def modulePart (include_module : Bool) (r : LogRecord) : List String :=
  if include_module then
    match r.module with
    | some m => ["[" ++ m ++ "]"]
    | none => []
  else []

/-- The optional caller part `[file:line]`. -/
def callerPart (include_caller : Bool) (r : LogRecord) : List String :=
  if include_caller then
    match r.caller with
    | some c => ["[" ++ c.file ++ ":" ++ toString c.line ++ "]"]
    | none => []
  else []

/-- The trailing metadata part `[k=v, ...]`, present when the record has
metadata. -/
def metadataPart (r : LogRecord) : List String :=
  if r.metadata.isEmpty then []
  else
    ["[" ++ String.intercalate ", "
        (r.metadata.map fun kv => kv.1 ++ "=" ++ kv.2) ++ "]"]

/-- Embedding of `TextFormatter::format`: timestamp, colored right-aligned level tag,
then the optional thread/module/caller parts, the message and the
metadata, joined by single spaces. -/
def TextFormatter.format (f : TextFormatter) (r : LogRecord) : String :=
  let timestamp := r.timestamp f.datetime_format
  let level_str :=
    if f.colors then
      Colors.for_level r.level ++ padLeft7 r.level.as_str ++ Colors.RESET
    else
      padLeft7 r.level.as_str
  let parts :=
    [timestamp, "[" ++ level_str ++ "]:"]
      ++ threadPart f.include_thread r
      ++ modulePart f.include_module r
      ++ callerPart f.include_caller r
      ++ [r.message]
      ++ metadataPart r
  String.intercalate " " parts

/-- Embedding of `PlainFormatter::format`: as the text formatter but with a bare,
unpadded, uncolored level tag. -/
def PlainFormatter.format (f : PlainFormatter) (r : LogRecord) : String :=
  let timestamp := r.timestamp f.datetime_format
  let parts :=
    [timestamp, "[" ++ r.level.as_str ++ "]:"]
      ++ threadPart f.include_thread r
      ++ modulePart f.include_module r
      ++ callerPart f.include_caller r
      ++ [r.message]
      ++ metadataPart r
  String.intercalate " " parts

/-- Minimal JSON string quoting: backslash and double-quote escapes.
Control-character escaping of serde_json is not needed by any claim. -/
def jsonEscape (s : String) : String :=
  String.mk (s.data.flatMap fun c =>
    if c = '\\' then ['\\', '\\']
    else if c = '"' then ['\\', '"']
    else [c])

/-- A quoted JSON string literal. -/
def jstr (s : String) : String :=
  "\"" ++ jsonEscape s ++ "\""

/-- A JSON value that is either null or a quoted string, for the optional
string fields serde serializes from `Option`. -/
def jopt : Option String → String
  | some s => jstr s
  | none => "null"

/-- A JSON object from already-rendered key/value pairs.  serde_json keeps
objects in a map ordered by key, so the fields are sorted before
rendering. -/
def jobj (fields : List (String × String)) : String :=
  let sorted := fields.mergeSort fun a b => (compare a.1 b.1).isLE
  "\x7b" ++
    String.intercalate ","
      (sorted.map fun kv => jstr kv.1 ++ ":" ++ kv.2) ++
    "\x7d"

/-- Embedding of `JsonFormatter::format`: the base timestamp/level/message object plus
the optional module, caller, thread and metadata fields.  The
pretty-printing branch is never reachable through `create_formatter`
(which leaves `pretty` false) and is rendered compactly here. -/
def JsonFormatter.format (f : JsonFormatter) (r : LogRecord) : String :=
  let base :=
    [("timestamp", jstr (r.timestamp f.datetime_format)),
     ("level", jstr r.level.as_str),
     ("message", jstr r.message)]
  let withModule :=
    if f.include_module then
      match r.module with
      | some m => base ++ [("module", jstr m)]
      | none => base
    else base
  let withCaller :=
    if f.include_caller then
      match r.caller with
      | some c =>
        withModule ++
          [("caller",
            jobj [("file", jstr c.file), ("line", toString c.line),
                  ("module", jopt c.module)])]
      | none => withModule
    else withModule
  let withThread :=
    if f.include_thread then
      match r.thread with
      | some t =>
        withCaller ++
          [("thread", jobj [("id", jstr t.id), ("name", jopt t.name)])]
      | none => withCaller
    else withCaller
  let withMeta :=
    if r.metadata.isEmpty then withThread
    else withThread ++
      [("metadata", jobj (r.metadata.map fun kv => (kv.1, jstr kv.2)))]
  jobj withMeta

/-- A `Box<dyn Formatter>` value: one of the three concrete formatters. -/
inductive FormatterBox where
  | text (f : TextFormatter)
  | json (f : JsonFormatter)
  | plain (f : PlainFormatter)
deriving DecidableEq, Repr

/-- Embedding of `Formatter::format` dispatched through the boxed trait object. -/
def FormatterBox.format : FormatterBox → LogRecord → String
  | .text f, r => f.format r
  | .json f, r => f.format r
  | .plain f, r => f.format r

/-- Embedding of `create_formatter` from `src/formatters.rs`. -/
def create_formatter (format : OutputFormat) (colors : Bool)
    (datetime_format : String) (include_caller include_thread
    include_module : Bool) : FormatterBox :=
  match format with
  | .Text =>
    .text { colors := colors, datetime_format := datetime_format,
            include_caller := include_caller,
            include_thread := include_thread,
            include_module := include_module }
  | .Json =>
    .json { pretty := false, datetime_format := datetime_format,
            include_caller := include_caller,
            include_thread := include_thread,
            include_module := include_module }
  | .Plain =>
    .plain { datetime_format := datetime_format,
             include_caller := include_caller,
             include_thread := include_thread,
             include_module := include_module }

/-- The formatting step of the async worker loop in
`LoggerInstance::start_async_thread`: a formatter is rebuilt per message
from `LoggerConfig::default()` (colors hardwired off, module hardwired
on) and applied to the dequeued record. -/
def asyncWorkerFormatMessage (r : LogRecord) : String :=
  let cfg := LoggerConfig.defaultConfig
  (create_formatter cfg.format false cfg.datetime_format
      cfg.include_caller cfg.include_thread true).format r

/-- The synchronous-path formatting in `LoggerInstance::log_with_caller`:
the formatter is rebuilt from the dispatcher's actual configuration. -/
def syncPathFormat (cfg : LoggerConfig) (r : LogRecord) : String :=
  (create_formatter cfg.format cfg.console.colors cfg.datetime_format
      cfg.include_caller cfg.include_thread true).format r

/-- The default-configuration rendering that claim C2 names: what a
formatter built from a freshly constructed default configuration (default
format, datetime format, caller/thread flags) produces. -/
def defaultConfigRendering (r : LogRecord) : String :=
  (create_formatter LoggerConfig.defaultConfig.format false
      LoggerConfig.defaultConfig.datetime_format
      LoggerConfig.defaultConfig.include_caller
      LoggerConfig.defaultConfig.include_thread true).format r

/-- A dispatcher configuration that differs from the default: plain
output format. -/
def plainCfg : LoggerConfig :=
  { LoggerConfig.defaultConfig with format := .Plain }

/-- A sample record for evaluating the formatters. -/
def sampleRecord : LogRecord :=
  { level := .Info
    message := "m"
    timestamp := fun _ => "T"
    module := none
    caller := none
    thread := none
    metadata := [] }

/-- C2: the async worker formats every dequeued record with a formatter
rebuilt from a freshly constructed default configuration, so the string
it hands to the writers equals the default-config rendering for every
record; and for a dispatcher whose configuration differs from the default
(plain format here) that string differs from the rendering the same
dispatcher would produce on its synchronous path. -/
theorem c2_async_worker_uses_default_config :
    (∀ r : LogRecord, asyncWorkerFormatMessage r = defaultConfigRendering r) ∧
      asyncWorkerFormatMessage sampleRecord ≠
        syncPathFormat plainCfg sampleRecord := by
  exact ⟨fun r => rfl, by decide⟩

/-- The behaviour of one `Box<dyn Writer>` child of a `MultiWriter` in a
single `write` call: its `should_write` predicate and the result its
`write` would return if attempted (`src/writers.rs`). -/
structure ChildWriter where
  should : LogLevel → Bool
  result : Except LoggerError Unit

/-- Embedding of `LevelFilterWriter::should_write`: the record level is at or above
(rank at most) the minimum level and the inner writer agrees. -/
def levelFilterShould (min_level : LogLevel) (innerShould : LogLevel → Bool)
    (level : LogLevel) : Bool :=
  decide (level.rank ≤ min_level.rank) && innerShould level

/-- The loop of `MultiWriter::write`: walk the children in insertion
order, attempt `write` on each child whose `should_write` accepts the
level, and collect the errors in order.  Returns the attempted children
and the collected errors. -/
def multiWriteTrace : List ChildWriter → LogLevel →
    List ChildWriter × List LoggerError
  | [], _ => ([], [])
  | c :: rest, l =>
    let t := multiWriteTrace rest l
    if c.should l then
      match c.result with
      | .ok _ => (c :: t.1, t.2)
      | .error e => (c :: t.1, e :: t.2)
    else t

/-- Embedding of `MultiWriter::write`'s result: the first collected error if any,
else success. -/
def multiWrite (children : List ChildWriter) (l : LogLevel) :
    Except LoggerError Unit :=
  match (multiWriteTrace children l).2.head? with
  | some e => .error e
  | none => .ok ()

/-- The error a child's write would contribute, if any. -/
def childError (c : ChildWriter) : Option LoggerError :=
  match c.result with
  | .error e => some e
  | .ok _ => none

lemma multiWriteTrace_fst (children : List ChildWriter) (l : LogLevel) :
    (multiWriteTrace children l).1 = children.filter fun c => c.should l := by
  induction children with
  | nil => rfl
  | cons c rest ih =>
    simp only [multiWriteTrace, List.filter_cons]
    cases h : c.should l with
    | false => simpa [h] using ih
    | true =>
      cases c.result with
      | ok _ => simpa [h] using ih
      | error e => simpa [h] using ih

lemma multiWriteTrace_snd (children : List ChildWriter) (l : LogLevel) :
    (multiWriteTrace children l).2 =
      (children.filter fun c => c.should l).filterMap childError := by
  induction children with
  | nil => rfl
  | cons c rest ih =>
    simp only [multiWriteTrace, List.filter_cons]
    cases h : c.should l with
    | false => simpa [h] using ih
    | true =>
      cases hr : c.result with
      | ok u => simp [h, List.filterMap_cons, childError, hr, ih]
      | error e => simp [h, List.filterMap_cons, childError, hr, ih]

/-- A child that declines the record level: a `BufferedWriter` wrapping a
`LevelFilterWriter` with minimum level Error reports `should_write` false
for Info, yet its `write`, were it attempted, would fail (its internal
periodic flush can return an I/O error). -/
def decliningChild : ChildWriter :=
  { should := levelFilterShould .Error fun _ => true
    result := .error .Io }

/-- C7 counterexample: with the single child above and an Info record,
`MultiWriter::write` attempts no child at all — although the claim says
the write is attempted on every child — and returns success even though
that child's write would have failed, so the result is not the first
error of a failed child either. -/
theorem c7_multi_writer_counterexample :
    (multiWriteTrace [decliningChild] .Info).1.length = 0 ∧
      decliningChild.result = .error .Io ∧
      multiWrite [decliningChild] .Info = .ok () := by
  refine ⟨rfl, rfl, rfl⟩

/-- C7 amended: `MultiWriter::write` attempts the write on exactly those
children whose `should_write` accepts the record's level, in insertion
order; a failure of one such child never prevents the attempt on the
later eligible children, and the result is the first error collected
from the attempted children if any of them failed, else success. -/
theorem c7_multi_writer_amended (children : List ChildWriter)
    (level : LogLevel) :
    (multiWriteTrace children level).1 =
        (children.filter fun c => c.should level) ∧
      multiWrite children level =
        (match ((children.filter fun c => c.should level).filterMap
            childError).head? with
         | some e => .error e
         | none => .ok ()) := by
  refine ⟨multiWriteTrace_fst children level, ?_⟩
  unfold multiWrite
  rw [multiWriteTrace_snd]

/-- A sibling file of the active log file, with its modification time in
seconds; the pair `fs::read_dir` + `metadata().modified()` yields per
entry in `FileWriter::cleanup_old_backups`. -/
structure BackupFile where
  name : String
  mtime : Nat
deriving DecidableEq, Repr

/-- The backup candidates of `cleanup_old_backups`: directory entries
whose name starts with `{stem}.{ext}` and which are not the active file
itself. -/
def matchingBackups (currentName stem ext : String)
    (entries : List BackupFile) : List BackupFile :=
  let pattern := stem ++ "." ++ ext
  entries.filter fun f => f.name.startsWith pattern && f.name != currentName

/-- The comparator `|a, b| b.1.cmp(&a.1)` of `cleanup_old_backups`:
newest first. -/
def newestFirst (a b : BackupFile) : Bool :=
  decide (b.mtime ≤ a.mtime)

/-- Embedding of `FileWriter::cleanup_old_backups`, returning the set of files it
deletes: nothing when `keep_files` is 0, otherwise everything beyond the
`keep_files` newest matching backups. -/
lemma newestFirst_trans (a b c : BackupFile) (hab : newestFirst a b = true)
    (hbc : newestFirst b c = true) : newestFirst a c = true := by
  simp only [newestFirst, decide_eq_true_eq] at hab hbc ⊢
  omega

lemma newestFirst_total (a b : BackupFile) :
    (newestFirst a b || newestFirst b a) = true := by
  simp only [newestFirst, Bool.or_eq_true, decide_eq_true_eq]
  omega

def cleanup_old_backups (keep_files : Nat) (currentName stem ext : String)
    (entries : List BackupFile) : List BackupFile :=
  if keep_files = 0 then []
  else
    ((matchingBackups currentName stem ext entries).mergeSort
        newestFirst).drop keep_files

/-- C6: with `keep_count` 0 the cleanup deletes no backup at all
(unlimited retention, not delete-everything); with `keep_count` K
positive it deletes exactly the matching sibling files beyond the K
newest: there is a modification-time-descending reordering of the
matching backups whose first K entries are kept and whose remainder is
deleted, and every deleted file matches the base-name pattern and is not
the active file. -/
theorem c6_backup_cleanup (keep_files : Nat) (currentName stem ext : String)
    (entries : List BackupFile) :
    (keep_files = 0 →
       cleanup_old_backups keep_files currentName stem ext entries = []) ∧
      (0 < keep_files →
        ∃ l : List BackupFile,
          l.Perm (matchingBackups currentName stem ext entries) ∧
          l.Sorted (fun a b => b.mtime ≤ a.mtime) ∧
          cleanup_old_backups keep_files currentName stem ext entries =
            l.drop keep_files ∧
          ∀ f ∈ cleanup_old_backups keep_files currentName stem ext entries,
            f.name.startsWith (stem ++ "." ++ ext) ∧ f.name ≠ currentName) := by
  constructor
  · intro h
    simp [cleanup_old_backups, h]
  · intro hk
    refine ⟨(matchingBackups currentName stem ext entries).mergeSort
      newestFirst, List.mergeSort_perm _ _, ?_, ?_, ?_⟩
    · have h := List.sorted_mergeSort newestFirst_trans newestFirst_total
        (matchingBackups currentName stem ext entries)
      exact h.imp (by simp [newestFirst])
    · simp [cleanup_old_backups, Nat.pos_iff_ne_zero.mp hk]
    · intro f hf
      simp only [cleanup_old_backups, if_neg (Nat.pos_iff_ne_zero.mp hk)]
        at hf
      have hmem : f ∈ (matchingBackups currentName stem ext entries) :=
        (List.mergeSort_perm _ newestFirst).mem_iff.mp
          (List.mem_of_mem_drop hf)
      simp only [matchingBackups, List.mem_filter, Bool.and_eq_true,
        bne_iff_ne, ne_eq] at hmem
      exact ⟨hmem.2.1, hmem.2.2⟩

/-- A witness instantiating `c6_backup_cleanup` at both a zero and a
positive retention count. -/
theorem c6_backup_cleanup_witness :
    cleanup_old_backups 0 "app.log" "app" "log"
        [⟨"app.log.1", 5⟩, ⟨"app.log.2", 9⟩] = [] ∧
      ∃ l : List BackupFile,
        l.Perm (matchingBackups "app.log" "app" "log"
          [⟨"app.log.1", 5⟩, ⟨"app.log.2", 9⟩]) ∧
        l.Sorted (fun a b => b.mtime ≤ a.mtime) ∧
        cleanup_old_backups 1 "app.log" "app" "log"
            [⟨"app.log.1", 5⟩, ⟨"app.log.2", 9⟩] = l.drop 1 ∧
        ∀ f ∈ cleanup_old_backups 1 "app.log" "app" "log"
            [⟨"app.log.1", 5⟩, ⟨"app.log.2", 9⟩],
          f.name.startsWith ("app" ++ "." ++ "log") ∧ f.name ≠ "app.log" :=
  ⟨(c6_backup_cleanup 0 "app.log" "app" "log" _).1 rfl,
   (c6_backup_cleanup 1 "app.log" "app" "log" _).2 (by decide)⟩

/-- A calendar view of a `chrono::DateTime<Local>`: the fields the
rotation code reads from it (`date_naive`, `iso_week`, `month`, `year`). -/
structure CalDate where
  year : Int
  month : Nat
  day : Nat
  iso_year : Int
  iso_week : Nat
deriving DecidableEq, Repr

/-- The facts `FileWriter` reads from the file system at a rotation
check: the modification time of the active path, absent when the file
does not exist (then `fs::metadata` fails). -/
structure FsView where
  modTime : Option CalDate
deriving DecidableEq, Repr

/-- The mutable state of a `FileWriter` that the rotation check touches. -/
structure FileWriterState where
  config : FileConfig
  current_path : String
  current_size : Nat
  last_rotation_check : Nat
deriving DecidableEq, Repr

/-- Embedding of `FileWriter::get_file_modified_time`: `fs::metadata(path)?.modified()?`
converted to a local datetime; with the file absent the metadata call
fails and the error propagates. -/
def get_file_modified_time (fs : FsView) : Except LoggerError CalDate :=
  match fs.modTime with
  | none => .error .Io
  | some t => .ok t

/-- Embedding of `FileWriter::should_rotate_by_time`: throttle to one check per 60
seconds, then compare the calendar bucket of the file's modification
time with the current bucket.  `duration_since` fails if the clock went
backwards. -/
def should_rotate_by_time (st : FileWriterState) (now : Nat)
    (nowLocal : CalDate) (fs : FsView) (freq : RotationFrequency) :
    Except LoggerError (Bool × FileWriterState) :=
  if now < st.last_rotation_check then .error .Time
  else if now - st.last_rotation_check < 60 then .ok (false, st)
  else
    let st1 := { st with last_rotation_check := now }
    match get_file_modified_time fs with
    | .error e => .error e
    | .ok fm =>
      match freq with
      | .Daily =>
        .ok (!(nowLocal.year == fm.year && nowLocal.month == fm.month &&
          nowLocal.day == fm.day), st1)
      | .Weekly =>
        .ok (!(nowLocal.iso_year == fm.iso_year &&
          nowLocal.iso_week == fm.iso_week), st1)
      | .Monthly =>
        .ok (!(nowLocal.month == fm.month) || !(nowLocal.year == fm.year),
          st1)

/-- Embedding of `FileWriter::check_and_rotate`: dispatch on the rotation policy. -/
def check_and_rotate (st : FileWriterState) (now : Nat) (nowLocal : CalDate)
    (fs : FsView) : Except LoggerError (Bool × FileWriterState) :=
  match st.config.rotation with
  | .None => .ok (false, st)
  | .Size max_size _ => .ok (decide (max_size ≤ st.current_size), st)
  | .Time freq _ => should_rotate_by_time st now nowLocal fs freq

/-- The state effect of `FileWriter::rotate_file` on the rotation state:
the size counter resets and the path is reopened fresh (the rename and
backup cleanup are modelled by `cleanup_old_backups`). -/
def rotateFileModel (st : FileWriterState) : FileWriterState :=
  { st with current_size := 0 }

/-- Embedding of `FileWriter::write` (the `Writer` impl): rotation check first — its
error fails the write — then append the line and grow the size counter
by the byte length written plus the newline. -/
def FileWriterState.write (st : FileWriterState) (now : Nat)
    (nowLocal : CalDate) (fs : FsView) (formatted : String) :
    Except LoggerError FileWriterState :=
  match check_and_rotate st now nowLocal fs with
  | .error e => .error e
  | .ok (shouldRot, st1) =>
    let st2 := if shouldRot then rotateFileModel st1 else st1
    .ok { st2 with
          current_size := st2.current_size + formatted.utf8ByteSize + 1 }

/-- A file writer configured for daily time-based rotation. -/
def timeRotState : FileWriterState :=
  { config := { path := "app.log", append := true,
                rotation := .Time .Daily 3, buffer_size := 8192,
                flush_interval := 1000 }
    current_path := "app.log"
    current_size := 0
    last_rotation_check := 0 }

/-- A concrete calendar instant. -/
def someDate : CalDate :=
  { year := 2024, month := 5, day := 1, iso_year := 2024, iso_week := 18 }

/-- C4 counterexample: with daily rotation, 60 seconds past the previous
rotation check and the target file absent (no prior modification time),
`FileWriter::write` returns the propagated I/O error of the metadata
lookup instead of treating the situation as never-rotate-yet and
succeeding. -/
theorem c4_missing_file_counterexample :
    timeRotState.write 60 someDate ⟨none⟩ "x" = .error .Io := by
  rfl

/-- C4 amended: under a time-based rotation policy, when the active file
has no modification time (the target file does not exist at
rotation-check time), a write whose rotation check falls outside the
60-second throttle window fails with the propagated I/O error of the
metadata lookup; only a write within the throttle window skips the
metadata lookup and succeeds. -/
theorem c4_missing_file_amended (st : FileWriterState) (now : Nat)
    (nowLocal : CalDate) (freq : RotationFrequency) (keep : Nat)
    (formatted : String)
    (hrot : st.config.rotation = .Time freq keep)
    (hclock : st.last_rotation_check ≤ now) :
    (60 ≤ now - st.last_rotation_check →
       st.write now nowLocal ⟨none⟩ formatted = .error .Io) ∧
      (now - st.last_rotation_check < 60 →
        st.write now nowLocal ⟨none⟩ formatted =
          .ok { st with current_size :=
            st.current_size + formatted.utf8ByteSize + 1 }) := by
  constructor
  · intro h60
    simp only [FileWriterState.write, check_and_rotate, hrot,
      should_rotate_by_time, get_file_modified_time]
    rw [if_neg (by omega), if_neg (by omega)]
  · intro h60
    simp only [FileWriterState.write, check_and_rotate, hrot,
      should_rotate_by_time]
    rw [if_neg (by omega), if_pos h60]
    rfl

/-- A witness instantiating `c4_missing_file_amended` both outside and
inside the throttle window. -/
theorem c4_missing_file_amended_witness :
    timeRotState.write 60 someDate ⟨none⟩ "x" = .error .Io ∧
      timeRotState.write 59 someDate ⟨none⟩ "x" =
        .ok { timeRotState with current_size :=
          timeRotState.current_size + "x".utf8ByteSize + 1 } :=
  ⟨(c4_missing_file_amended timeRotState 60 someDate .Daily 3 "x" rfl
      (by decide)).1 (by decide),
   (c4_missing_file_amended timeRotState 59 someDate .Daily 3 "x" rfl
      (by decide)).2 (by decide)⟩

/-- Logger statistics (`src/logger.rs`, `LoggerStats`).  The per-level
map is modelled by its lookup with default 0, mirroring
`entry(level).or_insert(0)`; the start time is in seconds. -/
structure LoggerStats where
  total_messages : Nat
  messages_by_level : LogLevel → Nat
  start_time : Option Nat
  error_count : Nat

/-- The statistics a fresh `LoggerInstance` starts with, and the value
`reset_stats` installs. -/
def initialStats (now : Nat) : LoggerStats :=
  { total_messages := 0
    messages_by_level := fun _ => 0
    start_time := some now
    error_count := 0 }

/-- Embedding of `LoggerInstance::reset_stats`: the whole statistics value is replaced
by a fresh one. -/
def reset_stats (_s : LoggerStats) (now : Nat) : LoggerStats :=
  initialStats now

/-- The statistics update block of `log_with_caller`: the total and the
level's entry are incremented together under the stats lock. -/
def recordStats (s : LoggerStats) (level : LogLevel) : LoggerStats :=
  { s with
    total_messages := s.total_messages + 1
    messages_by_level := fun l =>
      if l = level then s.messages_by_level l + 1 else s.messages_by_level l }

/-- The error-count bump on a failed write or a failed channel send. -/
def bumpErrorCount (s : LoggerStats) : LoggerStats :=
  { s with error_count := s.error_count + 1 }

/-- The dispatcher as `log_with_caller` sees it: its configuration and
whether the async sender exists. -/
structure LoggerModel where
  cfg : LoggerConfig
  asyncMode : Bool

/-- The observable dispatcher state one call can change: the statistics,
the writes performed on the (synchronous) writer graph, and the records
handed to the async channel. -/
structure LogState where
  stats : LoggerStats
  written : List (LogRecord × String)
  queued : List LogRecord

/-- The per-call environment: the freshly taken timestamp (as its
rendering function), the calling thread's identity, the writer graph's
verdict on this write, and whether the channel send succeeds. -/
structure CallEnv where
  nowTs : String → String
  threadInfo : ThreadInfo
  writeOutcome : Except LoggerError Unit
  sendOk : Bool

/-- Record construction inside `log_with_caller`: message and timestamp,
then module, caller, thread (when configured) and the global metadata. -/
def buildRecord (cfg : LoggerConfig) (env : CallEnv) (level : LogLevel)
    (message : String) (caller : Option CallerInfo)
    (module : Option String) : LogRecord :=
  let r := LogRecord.new level message env.nowTs
  let r := match module with
    | some m => r.with_module m
    | none => r
  let r := match caller with
    | some c => r.with_caller c
    | none => r
  let r := if cfg.include_thread then r.with_thread env.threadInfo else r
  r.with_metadata_map cfg.metadata

lemma buildRecord_level (cfg : LoggerConfig) (env : CallEnv)
    (level : LogLevel) (message : String) (caller : Option CallerInfo)
    (module : Option String) :
    (buildRecord cfg env level message caller module).level = level := by
  cases module <;> cases caller <;> by_cases h : cfg.include_thread <;>
    simp [buildRecord, LogRecord.new, LogRecord.with_module,
      LogRecord.with_caller, LogRecord.with_thread,
      LogRecord.with_metadata_map, h]

lemma buildRecord_message (cfg : LoggerConfig) (env : CallEnv)
    (level : LogLevel) (message : String) (caller : Option CallerInfo)
    (module : Option String) :
    (buildRecord cfg env level message caller module).message = message := by
  cases module <;> cases caller <;> by_cases h : cfg.include_thread <;>
    simp [buildRecord, LogRecord.new, LogRecord.with_module,
      LogRecord.with_caller, LogRecord.with_thread,
      LogRecord.with_metadata_map, h]

/-- The effective threshold `log_with_caller` filters against: the
module's effective level when a module is given, else the global level. -/
def effectiveThreshold (cfg : LoggerConfig) (module : Option String) :
    LogLevel :=
  match module with
  | some m => cfg.effective_level m
  | none => cfg.level

/-- Embedding of `LoggerInstance::log_with_caller`: resolve the effective level and
return success immediately when the call's level is numerically less
severe; otherwise build the record, update the statistics, and either
hand the record to the async channel (a failed send surfaces a Channel
error and bumps the error count) or format it and write it through the
writer graph (a failed write bumps the error count and propagates). -/
def log_with_caller (m : LoggerModel) (env : CallEnv) (st : LogState)
    (level : LogLevel) (message : String) (caller : Option CallerInfo)
    (module : Option String) : Except LoggerError Unit × LogState :=
  let eff := effectiveThreshold m.cfg module
  if eff.rank < level.rank then (.ok (), st)
  else
    let record := buildRecord m.cfg env level message caller module
    let stats1 := recordStats st.stats level
    if m.asyncMode then
      if env.sendOk then
        (.ok (), { st with stats := stats1, queued := st.queued ++ [record] })
      else
        (.error (.Channel "Failed to send message to async thread"),
         { st with stats := bumpErrorCount stats1 })
    else
      let formatted := syncPathFormat m.cfg record
      match env.writeOutcome with
      | .ok _ =>
        (.ok (),
         { st with
           stats := stats1
           written := st.written ++ [(record, formatted)] })
      | .error e =>
        (.error e,
         { st with
           stats := bumpErrorCount stats1
           written := st.written ++ [(record, formatted)] })

/-- C3: a log call whose level is numerically less severe than the
effective threshold (rank of the level greater than the threshold's)
returns success with the dispatcher state untouched — no record, no
write, no enqueue, statistics unchanged — and a synchronous call at or
more severe than the threshold is delivered to the writer graph: exactly
one write whose record carries the call's level and message is appended. -/
theorem c3_level_filtering (m : LoggerModel) (env : CallEnv) (st : LogState)
    (level : LogLevel) (message : String) (caller : Option CallerInfo)
    (module : Option String) :
    ((effectiveThreshold m.cfg module).rank < level.rank →
       log_with_caller m env st level message caller module = (.ok (), st)) ∧
      (level.rank ≤ (effectiveThreshold m.cfg module).rank →
        m.asyncMode = false →
        ∃ rec fm,
          (log_with_caller m env st level message caller module).2.written =
            st.written ++ [(rec, fm)] ∧
          rec.level = level ∧ rec.message = message) := by
  constructor
  · intro h
    simp [log_with_caller, h]
  · intro hle hsync
    have hf : ¬ (effectiveThreshold m.cfg module).rank < level.rank := by
      omega
    refine ⟨buildRecord m.cfg env level message caller module,
      syncPathFormat m.cfg (buildRecord m.cfg env level message caller module),
      ?_, buildRecord_level m.cfg env level message caller module,
      buildRecord_message m.cfg env level message caller module⟩
    cases hw : env.writeOutcome <;>
      simp [log_with_caller, hf, hsync, hw]

/-- A synchronous dispatcher with the default configuration. -/
def syncDefaultModel : LoggerModel :=
  { cfg := LoggerConfig.defaultConfig, asyncMode := false }

/-- A benign call environment. -/
def envOk : CallEnv :=
  { nowTs := fun _ => "T"
    threadInfo := { id := "t0", name := none }
    writeOutcome := .ok ()
    sendOk := true }

/-- The empty dispatcher state. -/
def emptyState : LogState :=
  { stats := initialStats 0, written := [], queued := [] }

/-- A witness instantiating `c3_level_filtering` on the default
configuration: a Debug call is filtered against the Info threshold and an
Error call is delivered. -/
theorem c3_level_filtering_witness :
    log_with_caller syncDefaultModel envOk emptyState .Debug "d" none none =
        (.ok (), emptyState) ∧
      ∃ rec fm,
        (log_with_caller syncDefaultModel envOk emptyState .Error "e" none
            none).2.written = emptyState.written ++ [(rec, fm)] ∧
        rec.level = .Error ∧ rec.message = "e" :=
  ⟨(c3_level_filtering syncDefaultModel envOk emptyState .Debug "d" none
      none).1 (by decide),
   (c3_level_filtering syncDefaultModel envOk emptyState .Error "e" none
      none).2 (by decide) rfl⟩

/-- The claimed statistics invariant: the total equals the sum of the
per-level counts. -/
def statsInvariant (s : LoggerStats) : Prop :=
  s.total_messages = (LogLevel.all.map s.messages_by_level).sum

lemma sum_recordStats (s : LoggerStats) (level : LogLevel) :
    (LogLevel.all.map (recordStats s level).messages_by_level).sum =
      (LogLevel.all.map s.messages_by_level).sum + 1 := by
  cases level <;>
    simp [LogLevel.all, recordStats] <;> ring

/-- C10: the statistics invariant — total equals the sum of the
per-level counts — holds for the statistics a fresh dispatcher starts
with, is preserved by every `log_with_caller` call whatever its filter
verdict and whether or not the write or the enqueue fails, and is
re-established by `reset_stats`. -/
theorem c10_stats_invariant :
    (∀ now, statsInvariant (initialStats now)) ∧
      (∀ (m : LoggerModel) (env : CallEnv) (st : LogState)
          (level : LogLevel) (message : String)
          (caller : Option CallerInfo) (module : Option String),
        statsInvariant st.stats →
        statsInvariant
          (log_with_caller m env st level message caller module).2.stats) ∧
      (∀ (s : LoggerStats) (now : Nat), statsInvariant (reset_stats s now)) := by
  refine ⟨fun now => by simp [statsInvariant, initialStats, LogLevel.all],
    ?_, fun s now => by simp [statsInvariant, reset_stats, initialStats,
      LogLevel.all]⟩
  intro m env st level message caller module hinv
  have hsum := sum_recordStats st.stats level
  have hrec : statsInvariant (recordStats st.stats level) := by
    unfold statsInvariant at hinv ⊢
    rw [sum_recordStats]
    simp only [recordStats]
    omega
  by_cases hf : (effectiveThreshold m.cfg module).rank < level.rank
  · simpa [log_with_caller, hf] using hinv
  · cases ha : m.asyncMode <;> cases hs : env.sendOk <;>
      cases hw : env.writeOutcome <;>
      simp only [log_with_caller, hf, ha, hs, hw, if_false, if_true,
        Bool.false_eq_true, Bool.true_eq_false, ite_false, ite_true] <;>
      exact hrec

/-- A witness instantiating `c10_stats_invariant`: the invariant holds
after logging once into a fresh dispatcher state. -/
theorem c10_stats_invariant_witness :
    statsInvariant
      (log_with_caller syncDefaultModel envOk emptyState .Info "i" none
        none).2.stats :=
  c10_stats_invariant.2.1 syncDefaultModel envOk emptyState .Info "i" none
    none (c10_stats_invariant.1 0)

/-- One writer created by `LoggerInstance::new`: a console writer with
its stderr routing and formatter, or a file writer with its file
configuration and formatter. -/
inductive WriterSpec where
  | console (use_stderr : Bool) (formatter : FormatterBox)
  | file (config : FileConfig) (formatter : FormatterBox)
deriving DecidableEq, Repr

/-- The resources a successfully constructed `LoggerInstance` owns: its
synchronous writer graph, the separate writer graph handed to the async
worker, and whether that worker thread exists. -/
structure LoggerHandle where
  writers : List WriterSpec
  asyncWriters : List WriterSpec
  hasWorker : Bool
deriving DecidableEq, Repr

/-- Embedding of `FileWriter::new`: opening the log file is file-system work that can
fail; a failure is an I/O error, never a configuration error. -/
def fileWriterNew (fc : FileConfig) (formatter : FormatterBox)
    (fsOk : Bool) : Except LoggerError WriterSpec :=
  if fsOk then .ok (.file fc formatter) else .error .Io

/-- The writer-graph construction of `LoggerInstance::new`, used once for
the synchronous graph and once more for the async worker's graph: a
console writer when console output is enabled (formatter with the
configured colors), then a file writer when file output is enabled
(formatter without colors). -/
def buildWriters (cfg : LoggerConfig) (fsOk : Bool) :
    Except LoggerError (List WriterSpec) :=
  let consoleWs :=
    if cfg.console_enabled then
      [WriterSpec.console cfg.console.use_stderr
        (create_formatter cfg.format cfg.console.colors cfg.datetime_format
          cfg.include_caller cfg.include_thread true)]
    else []
  if cfg.file_enabled then
    match fileWriterNew cfg.file
        (create_formatter cfg.format false cfg.datetime_format
          cfg.include_caller cfg.include_thread true) fsOk with
    | .error e => .error e
    | .ok w => .ok (consoleWs ++ [w])
  else .ok consoleWs

/-- Embedding of `LoggerInstance::new`: validate the configuration first — a
validation error aborts before any writer or worker is created — then
build the synchronous writer graph, and when async mode is enabled build
the worker's own writer graph and spawn the worker. -/
def LoggerInstance.new (cfg : LoggerConfig) (fsOk : Bool) :
    Except LoggerError LoggerHandle :=
  match cfg.validate with
  | .error e => .error e
  | .ok _ =>
    match buildWriters cfg fsOk with
    | .error e => .error e
    | .ok ws =>
      if cfg.async_enabled then
        match buildWriters cfg fsOk with
        | .error e => .error e
        | .ok aws =>
          .ok { writers := ws, asyncWriters := aws, hasWorker := true }
      else .ok { writers := ws, asyncWriters := [], hasWorker := false }

/-- The three rejectable configuration shapes claim C5 enumerates. -/
def invalidConditions (cfg : LoggerConfig) : Prop :=
  (cfg.console_enabled = false ∧ cfg.file_enabled = false) ∨
    (cfg.file_enabled = true ∧ cfg.file.path = "") ∨
    (cfg.async_enabled = true ∧ cfg.async_buffer_size = 0)

lemma validate_ok_iff (cfg : LoggerConfig) :
    cfg.validate = .ok () ↔ ¬ invalidConditions cfg := by
  unfold LoggerConfig.validate invalidConditions
  split_ifs with h1 h2 h3 <;>
    simp_all [Bool.and_eq_true, Bool.not_eq_true', beq_iff_eq]

lemma validate_config_of_invalid (cfg : LoggerConfig)
    (h : invalidConditions cfg) :
    ∃ msg, cfg.validate = .error (.Config msg) := by
  unfold LoggerConfig.validate
  split_ifs with h1 h2 h3
  · exact ⟨_, rfl⟩
  · exact ⟨_, rfl⟩
  · exact ⟨_, rfl⟩
  · exact absurd h ((validate_ok_iff cfg).mp (by
      unfold LoggerConfig.validate
      rw [if_neg h1, if_neg h2, if_neg h3]))

lemma buildWriters_no_config (cfg : LoggerConfig) (fsOk : Bool) (msg : String) :
    buildWriters cfg fsOk ≠ .error (.Config msg) := by
  unfold buildWriters fileWriterNew
  cases hf : cfg.file_enabled <;> cases fsOk <;> simp

/-- C5: `LoggerInstance::new` rejects a configuration with a `Config`
error — constructing no writer graph and no worker — exactly when no
output is enabled, or file output is enabled with an empty path, or
async mode is enabled with queue capacity 0; every other configuration
passes validation. -/
theorem c5_config_validation (cfg : LoggerConfig) (fsOk : Bool) :
    ((∃ msg, LoggerInstance.new cfg fsOk = .error (.Config msg)) ↔
        invalidConditions cfg) ∧
      (cfg.validate = .ok () ↔ ¬ invalidConditions cfg) := by
  refine ⟨⟨?_, ?_⟩, validate_ok_iff cfg⟩
  · rintro ⟨msg, hmsg⟩
    by_contra hv
    have hok := (validate_ok_iff cfg).mpr hv
    unfold LoggerInstance.new at hmsg
    rw [hok] at hmsg
    rcases hb : buildWriters cfg fsOk with e | ws
    · rw [hb] at hmsg
      simp only [Except.error.injEq] at hmsg
      exact buildWriters_no_config cfg fsOk msg (by rw [hb, hmsg])
    · rw [hb] at hmsg
      by_cases ha : cfg.async_enabled = true <;> simp [ha] at hmsg
  · intro h
    obtain ⟨msg, hmsg⟩ := validate_config_of_invalid cfg h
    refine ⟨msg, ?_⟩
    unfold LoggerInstance.new
    rw [hmsg]

/-- The process-wide `init` of `src/logger.rs`: construct the instance
from the configuration first (its error propagates), then set the
`OnceCell` singleton, which refuses with `AlreadyInitialized` when a
logger is already registered and leaves it untouched. -/
def init (global : Option LoggerHandle) (cfg : LoggerConfig) (fsOk : Bool) :
    Except LoggerError Unit × Option LoggerHandle :=
  match LoggerInstance.new cfg fsOk with
  | .error e => (.error e, global)
  | .ok inst =>
    match global with
    | some _ => (.error .AlreadyInitialized, global)
    | none => (.ok (), some inst)

/-- An already-registered singleton instance. -/
def inst0 : LoggerHandle :=
  { writers := [], asyncWriters := [], hasWorker := false }

/-- A configuration that fails validation: neither console nor file
output enabled. -/
def noOutputCfg : LoggerConfig :=
  { LoggerConfig.defaultConfig with console_enabled := false }

/-- C8 counterexample: with the singleton already initialized, a second
`init` call whose configuration fails validation returns the `Config`
error, not `AlreadyInitialized` as the claim demands of every subsequent
call — though the singleton is indeed left unchanged. -/
theorem c8_init_counterexample :
    (init (some inst0) noOutputCfg true).1 =
        .error (.Config
          "At least one output (console or file) must be enabled") ∧
      (init (some inst0) noOutputCfg true).1 ≠
        .error .AlreadyInitialized ∧
      (init (some inst0) noOutputCfg true).2 = some inst0 := by
  refine ⟨rfl, ?_, rfl⟩
  intro h
  simp only [init] at h
  exact absurd (Except.error.inj h) (by simp)

/-- C8 amended: with the singleton already initialized, a subsequent
`init` whose configuration constructs successfully returns
`AlreadyInitialized`, one whose construction fails returns that
construction error instead, and in every case the singleton is left
unchanged: the first registered instance stays active. -/
theorem c8_init_amended (inst : LoggerHandle) (cfg : LoggerConfig)
    (fsOk : Bool) :
    ((LoggerInstance.new cfg fsOk).isOk = true →
       (init (some inst) cfg fsOk).1 = .error .AlreadyInitialized) ∧
      (∀ e, LoggerInstance.new cfg fsOk = .error e →
        (init (some inst) cfg fsOk).1 = .error e) ∧
      (init (some inst) cfg fsOk).2 = some inst := by
  rcases h : LoggerInstance.new cfg fsOk with e | i <;>
    simp [init, h, Except.isOk, Except.toBool]

/-- A witness instantiating `c8_init_amended` with a construction that
succeeds (the default configuration) and one that fails validation. -/
theorem c8_init_amended_witness :
    (init (some inst0) LoggerConfig.defaultConfig true).1 =
        .error .AlreadyInitialized ∧
      (init (some inst0) noOutputCfg true).1 =
        .error (.Config
          "At least one output (console or file) must be enabled") ∧
      (init (some inst0) noOutputCfg true).2 = some inst0 :=
  ⟨(c8_init_amended inst0 LoggerConfig.defaultConfig true).1 rfl,
   (c8_init_amended inst0 noOutputCfg true).2.1 _ rfl,
   (c8_init_amended inst0 noOutputCfg true).2.2⟩

/-- Embedding of `with_scoped_logger` from `src/logger.rs`: save the thread-local
slot, install the override, run the work — modelled as a state
transformer on the thread-local slot, so it may read the current logger
and even install others — and unconditionally write the saved previous
value back, whatever the work returned (its result type may itself be a
`Result`; an `Err` outcome takes the same path). -/
def with_scoped_logger {L : Type _} {α : Type _} (logger : L)
    (f : Option L → α × Option L) (tl : Option L) : α × Option L :=
  let previous := tl
  let res := f (some logger)
  (res.1, previous)

/-- Embedding of `current_logger` from `src/logger.rs`: the thread-local override
first, else the global singleton, else an attempted default
initialization (whose success registers the default instance), else
`NotInitialized`. -/
def current_logger {L : Type _} (tl global : Option L)
    (defaultInit : Except LoggerError L) :
    Except LoggerError L × Option L :=
  match tl with
  | some l => (.ok l, global)
  | none =>
    match global with
    | some l => (.ok l, global)
    | none =>
      match defaultInit with
      | .ok inst => (.ok inst, some inst)
      | .error _ => (.error .NotInitialized, global)

/-- C9: for every previous thread-local value, every override and every
unit of work, the work runs with the override installed — `current_logger`
resolves to the override during the work, whatever the global singleton
holds — its result is passed through unchanged (including an error
result: failure of the work takes the same path), and on exit the
thread-local slot holds exactly the previous value again, even if the
work itself changed the slot. -/
theorem c9_scoped_logger_restores {L : Type} {α : Type}
    (tl global : Option L) (logger : L) (f : Option L → α × Option L)
    (d : Except LoggerError L) :
    (with_scoped_logger logger f tl).2 = tl ∧
      (with_scoped_logger logger f tl).1 = (f (some logger)).1 ∧
      (current_logger (some logger) global d).1 = .ok logger :=
  ⟨rfl, rfl, rfl⟩

/-- A configuration with overrides at two depths of the same hierarchy:
`a` maps to Warning and `a::b` maps to Debug, global level Info. -/
def twoDepthCfg : LoggerConfig :=
  { LoggerConfig.defaultConfig with
    module_filters := fun m =>
      if m = "a" then some .Warning
      else if m = "a::b" then some .Debug
      else none }

/-- A configuration with the single override of the claim's example:
`a::b` maps to Debug, global level Info. -/
def singleOverrideCfg : LoggerConfig :=
  { LoggerConfig.defaultConfig with
    module_filters := fun m => if m = "a::b" then some .Debug else none }

/-- C1 counterexample: with overrides mapping `a` to Warning and `a::b` to
Debug and global level Info, the code resolves module `a::b::c` to the
FIRST (shortest) matching prefix, Warning, while the claimed
longest-prefix rule demands the last match, Debug. -/
theorem c1_effective_level_counterexample :
    twoDepthCfg.effective_level "a::b::c" = .Warning ∧
      claimedLongestResolve twoDepthCfg "a::b::c" = .Debug ∧
      LogLevel.Warning ≠ LogLevel.Debug := by
  refine ⟨?_, ?_, by decide⟩ <;> decide

/-- C1 amended: for every configuration and module path the effective
level is the exact-match override if one exists, else the first (hence
shortest) matching prefix override met when walking the `::`-separated
path segments from root to leaf, else the global level; in particular,
with overrides mapping `a::b` to Debug and global level Info, module
`a::b::c` resolves to Debug and module `x` resolves to Info. -/
theorem c1_effective_level_amended :
    (∀ (cfg : LoggerConfig) (module : String),
        cfg.effective_level module = shortestResolve cfg module) ∧
      singleOverrideCfg.effective_level "a::b::c" = .Debug ∧
      singleOverrideCfg.effective_level "x" = .Info := by
  refine ⟨?_, by decide, by decide⟩
  intro cfg module
  unfold LoggerConfig.effective_level shortestResolve moduleAncestors
  rw [walkSegments_eq_findSome]

end FiroLogger
